import Mathlib

/-!
# Verification of `compute_sales.py`

A shallow embedding of the sales-computation program: JSON values are an
inductive type, Python numbers are modelled exactly as rationals, the
per-record validation loops of `build_price_map` and `compute_total_sales`
become folds over lists, and the top-level `main` is a pure function of an
abstract load environment (what each input path yields) and the prior
content of the output file.  Console warning text is not modelled; the
error counter, which the program keeps alongside each warning, is.
-/

set_option autoImplicit false
set_option maxRecDepth 20000

namespace ComputeSales

/-- JSON values as produced by `json.load`: null, booleans, numbers
(ints and floats both modelled exactly as rationals), strings, arrays and
objects (ordered key/value fields). -/
inductive JValue where
  | null : JValue
  | bool : Bool → JValue
  | num : Rat → JValue
  | str : String → JValue
  | arr : List JValue → JValue
  | obj : List (String × JValue) → JValue

/-- Python `s.strip()`: remove whitespace from both ends. -/
def pyStrip (s : String) : String :=
  String.mk (((s.toList.dropWhile Char.isWhitespace).reverse.dropWhile
    Char.isWhitespace).reverse)

/-- Digit string to the natural number it denotes (most significant first). -/
def digitsVal (cs : List Char) : Nat :=
  cs.foldl (fun n c => n * 10 + (c.toNat - 48)) 0

/-- A nonempty all-digit string parses; anything else does not. -/
def digitsToNat (cs : List Char) : Option Nat :=
  if cs ≠ [] ∧ cs.all Char.isDigit then some (digitsVal cs) else none

/-- Python `int(s)` on a string: strip whitespace, optional sign, digits;
`ValueError` becomes `none`. -/
def pyIntOfString (s : String) : Option Int :=
  match (pyStrip s).toList with
  | '-' :: rest => (digitsToNat rest).map (fun n => -(n : Int))
  | '+' :: rest => (digitsToNat rest).map (fun n => (n : Int))
  | cs => (digitsToNat cs).map (fun n => (n : Int))

/-- Truncation toward zero, as Python `int(float)` does. -/
def ratTruncInt (q : Rat) : Int := Int.tdiv q.num (Int.ofNat q.den)

/-- Python `int(x)` on a value obtained with `.get` (so `none` is a missing
key, i.e. Python `None`): numbers truncate toward zero, booleans give 0/1,
strings parse, everything else raises `TypeError`/`ValueError`, which the
caller catches — modelled as `none`. -/
def pyInt : Option JValue → Option Int
  | some (JValue.bool b) => some (if b then 1 else 0)
  | some (JValue.num q) => some (ratTruncInt q)
  | some (JValue.str s) => pyIntOfString s
  | _ => none

/-- Exponent suffix of a Python float literal: optional sign then digits,
nothing after. -/
def pyExponent (mant : Rat) (r : List Char) : Option Rat :=
  let signAndRest : Int × List Char :=
    match r with
    | '-' :: r2 => (-1, r2)
    | '+' :: r2 => (1, r2)
    | r2 => (1, r2)
  let ed := signAndRest.2.takeWhile Char.isDigit
  let rest := signAndRest.2.dropWhile Char.isDigit
  if ed = [] ∨ rest ≠ [] then none
  else some (mant * (10 : Rat) ^ (signAndRest.1 * (digitsVal ed : Int)))

/-- Python `float(s)` on a string: strip whitespace, optional sign, decimal
digits with optional fraction and exponent.  (`inf`/`nan` literals have no
rational counterpart and are mapped to `none`.) -/
def pyFloatOfString (s : String) : Option Rat :=
  let cs := (pyStrip s).toList
  let signAndRest : Int × List Char :=
    match cs with
    | '-' :: r => (-1, r)
    | '+' :: r => (1, r)
    | r => (1, r)
  let sign := signAndRest.1
  let r0 := signAndRest.2
  let ip := r0.takeWhile Char.isDigit
  let r1 := r0.dropWhile Char.isDigit
  let fpAndRest : List Char × List Char :=
    match r1 with
    | '.' :: r => (r.takeWhile Char.isDigit, r.dropWhile Char.isDigit)
    | r => ([], r)
  let fp := fpAndRest.1
  let r2 := fpAndRest.2
  if ip = [] ∧ fp = [] then none
  else
    let mant : Rat :=
      ((sign * ((digitsVal ip) * 10 ^ fp.length + digitsVal fp) : Int) : Rat) /
        ((10 : Rat) ^ fp.length)
    match r2 with
    | [] => some mant
    | 'e' :: r3 => pyExponent mant r3
    | 'E' :: r3 => pyExponent mant r3
    | _ => none

/-- Python `float(x)` on a value obtained with `.get`: numbers pass through,
booleans give 0/1, strings parse, everything else raises
`TypeError`/`ValueError`, caught by the caller — modelled as `none`. -/
def pyFloat : Option JValue → Option Rat
  | some (JValue.bool b) => some (if b then 1 else 0)
  | some (JValue.num q) => some q
  | some (JValue.str s) => pyFloatOfString s
  | _ => none

/-- One iteration of the `build_price_map` loop: the validation chain of
`compute_sales.py` lines 32-50.  The price map is an association list with
the newest binding in front, so `prices[title] = v` is a cons. -/
def catalogStep (prices : List (String × Rat)) (item : JValue) : List (String × Rat) :=
  match item with
  | JValue.obj fields =>
    match List.lookup "title" fields with
    | some (JValue.str title) =>
      if pyStrip title = "" then prices
      else
        match pyFloat (List.lookup "price" fields) with
        | none => prices
        | some price_value => (title, price_value) :: prices
    | _ => prices
  | _ => prices

/-- Embedding of `build_price_map` (lines 21-52): non-list catalogs give the empty map,
lists are folded through `catalogStep`. -/
def build_price_map (catalog : JValue) : List (String × Rat) :=
  match catalog with
  | JValue.arr items => items.foldl catalogStep []
  | _ => []

/-- One iteration of the `compute_total_sales` loop: the validation chain of
lines 68-99, acting on the `(total, errors)` accumulator. -/
def saleStep (prices : List (String × Rat)) (acc : Rat × Nat) (record : JValue) :
    Rat × Nat :=
  match record with
  | JValue.obj fields =>
    match List.lookup "Product" fields with
    | some (JValue.str product) =>
      if pyStrip product = "" then (acc.1, acc.2 + 1)
      else
        match pyInt (List.lookup "Quantity" fields) with
        | none => (acc.1, acc.2 + 1)
        | some qty =>
          if qty < 0 then (acc.1, acc.2 + 1)
          else
            match List.lookup product prices with
            | none => (acc.1, acc.2 + 1)
            | some price => (acc.1 + price * (qty : Rat), acc.2)
    | _ => (acc.1, acc.2 + 1)
  | _ => (acc.1, acc.2 + 1)

/-- Embedding of `compute_total_sales` (lines 55-101): non-list sales payloads return
`(0, 1)` immediately; lists are folded through `saleStep` from `(0, 0)`. -/
def compute_total_sales (prices : List (String × Rat)) (sales : JValue) : Rat × Nat :=
  match sales with
  | JValue.arr records => records.foldl (saleStep prices) (0, 0)
  | _ => (0, 1)

/-- The monetary value a single record contributes, when it passes every
check of the loop body; `none` when any check fails.  This is the spec-side
characterisation that the loop is measured against. -/
def recordValue (prices : List (String × Rat)) (record : JValue) : Option Rat :=
  match record with
  | JValue.obj fields =>
    match List.lookup "Product" fields with
    | some (JValue.str product) =>
      if pyStrip product = "" then none
      else
        match pyInt (List.lookup "Quantity" fields) with
        | none => none
        | some qty =>
          if qty < 0 then none
          else
            match List.lookup product prices with
            | none => none
            | some price => some (price * (qty : Rat))
    | _ => none
  | _ => none

/-- The binding a single catalog entry contributes to the price map, when it
passes every check of the `build_price_map` loop body. -/
def entryBinding (item : JValue) : Option (String × Rat) :=
  match item with
  | JValue.obj fields =>
    match List.lookup "title" fields with
    | some (JValue.str title) =>
      if pyStrip title = "" then none
      else (pyFloat (List.lookup "price" fields)).map (fun v => (title, v))
    | _ => none
  | _ => none

/-- The quantity an arbitrary sales record carries, as `int()` sees it:
defined only for objects whose `Quantity` value converts. -/
def pyQuantity : JValue → Option Int
  | JValue.obj fields => pyInt (List.lookup "Quantity" fields)
  | _ => none

/-- The elements of an array payload; any other payload has none. -/
def arrElems : JValue → List JValue
  | JValue.arr xs => xs
  | _ => []

/-- Outcome of opening and parsing one input path, abstracting the three
`except` arms of `load_json` (lines 7-18). -/
inductive LoadOutcome where
  | ok : JValue → LoadOutcome
  | notFound : LoadOutcome
  | badJson : LoadOutcome
  | ioError : LoadOutcome

/-- Embedding of `load_json`: the parsed value on success, `None` on any of the three
failure kinds (each prints a diagnostic and falls through to `return None`). -/
def load_json (fs : String → LoadOutcome) (path : String) : Option JValue :=
  match fs path with
  | LoadOutcome.ok v => some v
  | _ => none

/-- Whether a load outcome is one of the three failure kinds (missing
file, malformed JSON, other read error). -/
def LoadOutcome.failed : LoadOutcome → Bool
  | LoadOutcome.ok _ => false
  | _ => true

/-- Integer floor `⌊q⌋` of a rational, computably. -/
def ratFloorInt (q : Rat) : Int := Int.fdiv q.num (Int.ofNat q.den)

/-- Round to the nearest integer, ties to even — the rounding Python's fixed
format applies to the (exactly represented) value. -/
def roundHalfEven (q : Rat) : Int :=
  let f := ratFloorInt q
  let r := q - (f : Rat)
  if r < 1 / 2 then f
  else if 1 / 2 < r then f + 1
  else if f % 2 = 0 then f else f + 1

/-- Exactly `w` decimal digits of `n`, most significant first, zero-padded. -/
def fracDigits : Nat → Nat → List Char
  | 0, _ => []
  | w + 1, n => fracDigits w (n / 10) ++ [Char.ofNat (48 + n % 10)]

/-- Python `f-string` fixed format `.{prec}f` on an exact rational. -/
def formatFixed (q : Rat) (prec : Nat) : String :=
  let scaled := roundHalfEven (q * (10 : Rat) ^ prec)
  let sign := if scaled < 0 then "-" else ""
  let m := scaled.natAbs
  let ipart := Nat.repr (m / 10 ^ prec)
  if prec = 0 then sign ++ ipart
  else sign ++ ipart ++ "." ++ String.mk (fracDigits prec (m % 10 ^ prec))

/-- Embedding of `format_results` (lines 104-110). -/
def format_results (total : Rat) (errors : Nat) (elapsed : Rat) : String :=
  "=== Sales Results ===\n" ++
  "Total Sales: $" ++ formatFixed total 2 ++ "\n" ++
  "Errors/Warnings: " ++ Nat.repr errors ++ "\n" ++
  "Execution Time: " ++ formatFixed elapsed 6 ++ " seconds\n"

/-- Embedding of `write_results` (lines 113-115): `open(filename, "w")` truncates, so the
file content after the call is exactly `text`, whatever was there before. -/
def write_results (_oldContent : Option String) (text : String) : Option String :=
  some text

/-- Observable result of one run: the process exit status, the content of
`SalesResults.txt` afterwards (`none` = file absent), and the text handed to
the final `print(output)` if it was reached. -/
structure RunResult where
  exitCode : Nat
  outFile : Option String
  reportPrinted : Option String

/-- Embedding of `main` (lines 118-144) as a function of `sys.argv`, the load
environment, the prior output-file content, and the measured elapsed time. -/
def main (argv : List String) (fs : String → LoadOutcome) (outFile0 : Option String)
    (elapsed : Rat) : RunResult :=
  match argv with
  | [_, catalog_path, sales_path] =>
    match load_json fs catalog_path, load_json fs sales_path with
    | some catalog, some sales =>
      let prices := build_price_map catalog
      let te := compute_total_sales prices sales
      let output := format_results te.1 te.2 elapsed
      ⟨0, write_results outFile0 output, some output⟩
    | _, _ => ⟨1, outFile0, none⟩
  | _ => ⟨1, outFile0, none⟩

/-! ## Refined model with IEEE-double overflow

The exact model above keeps every number as a rational, which drops the
overflow behaviour of CPython doubles.  The refined model below represents
a JSON number the way `json.load` does — an arbitrary-precision integer
for an integer literal, a double for anything else (so the standard
literal 1e999 parses to `inf`) — and distinguishes the conversion errors
the loops catch (`TypeError`/`ValueError`) from the `OverflowError` they
do not, which escapes and crashes the run.  Finite doubles carry their
exact values (mantissa rounding is not modelled); leaving the double range
is: arithmetic saturates to an infinity, conversions raise. -/

/-- Magnitude at which a double computation leaves the finite range. -/
def dblOverflowNat : Nat := 2 ^ 1024

/-- The same double-range threshold as a rational. -/
def dblOverflow : Rat := mkRat (Int.ofNat dblOverflowNat) 1

/-- A CPython double: a finite value (carried exactly), an infinity, or a
NaN. -/
inductive PyFloat where
  | finite : Rat → PyFloat
  | inf : PyFloat
  | ninf : PyFloat
  | nan : PyFloat
  deriving DecidableEq

/-- A number as `json.load` yields it: `int` for an integer literal
(arbitrary precision), `float` for a literal with a fraction or exponent
and for the Infinity/NaN extensions. -/
inductive PNum where
  | int : Int → PNum
  | float : PyFloat → PNum
  deriving DecidableEq

/-- JSON values with IEEE-aware numbers. -/
inductive PValue where
  | null : PValue
  | bool : Bool → PValue
  | num : PNum → PValue
  | str : String → PValue
  | arr : List PValue → PValue
  | obj : List (String × PValue) → PValue

/-- Outcome of a Python numeric conversion: a value, an exception the
loop's `except (TypeError, ValueError)` clause catches, or an uncaught
`OverflowError` that crashes the run. -/
inductive PyConv (α : Type) where
  | ok : α → PyConv α
  | caught : PyConv α
  | overflow : PyConv α
  deriving DecidableEq

/-- Clamp an exact result into the double range: past the threshold a
double computation returns an infinity (arithmetic does not raise). -/
def PyFloat.clamp (q : Rat) : PyFloat :=
  if dblOverflow ≤ q then PyFloat.inf
  else if q ≤ -dblOverflow then PyFloat.ninf
  else PyFloat.finite q

/-- Double addition, as in `total += ...` (line 99, never raises):
infinities absorb, opposite infinities and NaN give NaN, finite sums
clamp into the double range. -/
def PyFloat.add : PyFloat → PyFloat → PyFloat
  | PyFloat.nan, _ => PyFloat.nan
  | _, PyFloat.nan => PyFloat.nan
  | PyFloat.inf, PyFloat.ninf => PyFloat.nan
  | PyFloat.ninf, PyFloat.inf => PyFloat.nan
  | PyFloat.inf, _ => PyFloat.inf
  | _, PyFloat.inf => PyFloat.inf
  | PyFloat.ninf, _ => PyFloat.ninf
  | _, PyFloat.ninf => PyFloat.ninf
  | PyFloat.finite a, PyFloat.finite b => PyFloat.clamp (a + b)

/-- The product `prices[product] * qty` (line 99): Python converts the int
to a double first, raising an uncaught `OverflowError` (`none`) beyond the
double range; otherwise IEEE multiplication — finite results clamp,
an infinity times zero is NaN, and no exception is raised. -/
def PyFloat.mulInt (f : PyFloat) (n : Int) : Option PyFloat :=
  if dblOverflowNat ≤ n.natAbs then none
  else some (match f with
    | PyFloat.nan => PyFloat.nan
    | PyFloat.inf =>
      if 0 < n then PyFloat.inf else if n < 0 then PyFloat.ninf else PyFloat.nan
    | PyFloat.ninf =>
      if 0 < n then PyFloat.ninf else if n < 0 then PyFloat.inf else PyFloat.nan
    | PyFloat.finite a => PyFloat.clamp (a * (n : Rat)))

/-- Python `int(x)` in the refined model: an infinite float raises
`OverflowError` — which `except (TypeError, ValueError)` at line 84 does
not catch — while NaN raises `ValueError` (caught); integers, finite
floats, booleans and digit strings convert as before. -/
def pyIntConv : Option PValue → PyConv Int
  | some (PValue.bool b) => PyConv.ok (if b then 1 else 0)
  | some (PValue.num (PNum.int n)) => PyConv.ok n
  | some (PValue.num (PNum.float (PyFloat.finite q))) => PyConv.ok (ratTruncInt q)
  | some (PValue.num (PNum.float PyFloat.inf)) => PyConv.overflow
  | some (PValue.num (PNum.float PyFloat.ninf)) => PyConv.overflow
  | some (PValue.num (PNum.float PyFloat.nan)) => PyConv.caught
  | some (PValue.str s) =>
    match pyIntOfString s with
    | some n => PyConv.ok n
    | none => PyConv.caught
  | _ => PyConv.caught

/-- Lowercased word forms `float()` accepts beyond numerals. -/
def pyFloatWord : List Char → Option PyFloat
  | ['i', 'n', 'f'] => some PyFloat.inf
  | ['i', 'n', 'f', 'i', 'n', 'i', 't', 'y'] => some PyFloat.inf
  | ['n', 'a', 'n'] => some PyFloat.nan
  | _ => none

/-- Python `float(string)` in the refined model: inf/nan words parse, huge
magnitudes give an infinity (a string conversion never raises
`OverflowError`), bad syntax is a caught `ValueError` (`none`). -/
def pyFloatOfStringP (s : String) : Option PyFloat :=
  let t := (pyStrip s).toList.map Char.toLower
  let signAndBody : Bool × List Char :=
    match t with
    | '-' :: r => (true, r)
    | '+' :: r => (false, r)
    | r => (false, r)
  match pyFloatWord signAndBody.2 with
  | some PyFloat.inf => some (if signAndBody.1 then PyFloat.ninf else PyFloat.inf)
  | some w => some w
  | none => (pyFloatOfString s).map PyFloat.clamp

/-- Python `float(x)` in the refined model: an integer beyond the double
range raises `OverflowError`, which `except (TypeError, ValueError)` at
line 46 does not catch; doubles pass through, booleans and parseable
strings convert, the rest raise caught errors. -/
def pyFloatConv : Option PValue → PyConv PyFloat
  | some (PValue.bool b) => PyConv.ok (PyFloat.finite (if b then 1 else 0))
  | some (PValue.num (PNum.float f)) => PyConv.ok f
  | some (PValue.num (PNum.int n)) =>
    if dblOverflowNat ≤ n.natAbs then PyConv.overflow
    else PyConv.ok (PyFloat.finite (n : Rat))
  | some (PValue.str s) =>
    match pyFloatOfStringP s with
    | some f => PyConv.ok f
    | none => PyConv.caught
  | _ => PyConv.caught

/-- One iteration of the sales loop in the refined model, the same guard
chain as `saleStep`; `none` is an uncaught exception escaping line 84
(infinite quantity) or line 99 (huge integer quantity). -/
def saleStepP (prices : List (String × PyFloat)) (acc : PyFloat × Nat) (record : PValue) :
    Option (PyFloat × Nat) :=
  match record with
  | PValue.obj fields =>
    match List.lookup "Product" fields with
    | some (PValue.str product) =>
      if pyStrip product = "" then some (acc.1, acc.2 + 1)
      else
        match pyIntConv (List.lookup "Quantity" fields) with
        | PyConv.overflow => none
        | PyConv.caught => some (acc.1, acc.2 + 1)
        | PyConv.ok qty =>
          if qty < 0 then some (acc.1, acc.2 + 1)
          else
            match List.lookup product prices with
            | none => some (acc.1, acc.2 + 1)
            | some price =>
              match price.mulInt qty with
              | none => none
              | some v => some (acc.1.add v, acc.2)
    | _ => some (acc.1, acc.2 + 1)
  | _ => some (acc.1, acc.2 + 1)

/-- The sales loop, aborting at the first uncaught exception. -/
def salesFoldP (prices : List (String × PyFloat)) :
    List PValue → PyFloat × Nat → Option (PyFloat × Nat)
  | [], acc => some acc
  | r :: rest, acc =>
    match saleStepP prices acc r with
    | none => none
    | some acc2 => salesFoldP prices rest acc2

/-- Refined `compute_total_sales`: the `(total, errors)` pair, or `none`
when an uncaught exception crashes the run. -/
def compute_total_salesP (prices : List (String × PyFloat)) (sales : PValue) :
    Option (PyFloat × Nat) :=
  match sales with
  | PValue.arr records => salesFoldP prices records (PyFloat.finite 0, 0)
  | _ => some (PyFloat.finite 0, 1)

/-- Spec-side outcome of one sales record in the refined model: `none` is
a crash, `some none` a counted error, `some (some v)` a contribution. -/
def recordOutcomeP (prices : List (String × PyFloat)) (record : PValue) :
    Option (Option PyFloat) :=
  match record with
  | PValue.obj fields =>
    match List.lookup "Product" fields with
    | some (PValue.str product) =>
      if pyStrip product = "" then some none
      else
        match pyIntConv (List.lookup "Quantity" fields) with
        | PyConv.overflow => none
        | PyConv.caught => some none
        | PyConv.ok qty =>
          if qty < 0 then some none
          else
            match List.lookup product prices with
            | none => some none
            | some price =>
              match price.mulInt qty with
              | none => none
              | some v => some (some v)
    | _ => some none
  | _ => some none

/-- One iteration of the catalog loop in the refined model; `none` is the
uncaught `OverflowError` from `float()` at line 45. -/
def catalogStepP (prices : List (String × PyFloat)) (item : PValue) :
    Option (List (String × PyFloat)) :=
  match item with
  | PValue.obj fields =>
    match List.lookup "title" fields with
    | some (PValue.str title) =>
      if pyStrip title = "" then some prices
      else
        match pyFloatConv (List.lookup "price" fields) with
        | PyConv.overflow => none
        | PyConv.caught => some prices
        | PyConv.ok price_value => some ((title, price_value) :: prices)
    | _ => some prices
  | _ => some prices

/-- The catalog loop, aborting at the first uncaught exception. -/
def catalogFoldP : List PValue → List (String × PyFloat) → Option (List (String × PyFloat))
  | [], acc => some acc
  | i :: rest, acc =>
    match catalogStepP acc i with
    | none => none
    | some acc2 => catalogFoldP rest acc2

/-- Refined `build_price_map`: the accumulated map, or `none` when
`float()` raises an uncaught `OverflowError`. -/
def build_price_mapP (catalog : PValue) : Option (List (String × PyFloat)) :=
  match catalog with
  | PValue.arr items => catalogFoldP items []
  | _ => some []

/-- Spec-side outcome of one catalog entry in the refined model. -/
def entryOutcomeP (item : PValue) : Option (Option (String × PyFloat)) :=
  match item with
  | PValue.obj fields =>
    match List.lookup "title" fields with
    | some (PValue.str title) =>
      if pyStrip title = "" then some none
      else
        match pyFloatConv (List.lookup "price" fields) with
        | PyConv.overflow => none
        | PyConv.caught => some none
        | PyConv.ok v => some (some (title, v))
    | _ => some none
  | _ => some none

/-- Elements of an array payload in the refined model. -/
def arrElemsP : PValue → List PValue
  | PValue.arr xs => xs
  | _ => []

/-- The quantity-conversion outcome an arbitrary sales record carries
(records that are not objects never reach the conversion). -/
def pyQuantityConvP : PValue → PyConv Int
  | PValue.obj fields => pyIntConv (List.lookup "Quantity" fields)
  | _ => PyConv.caught

/-! ## Loop characterisations -/

/-- The loop body of `compute_total_sales` either adds a record's value to
the running total or bumps the error counter, as `recordValue` decides. -/
theorem saleStep_eq (prices : List (String × Rat)) (acc : Rat × Nat) (record : JValue) :
    saleStep prices acc record =
      match recordValue prices record with
      | some v => (acc.1 + v, acc.2)
      | none => (acc.1, acc.2 + 1) := by
  cases record <;> try rfl
  case obj fields =>
    simp only [saleStep, recordValue]
    cases List.lookup "Product" fields with
    | none => rfl
    | some v =>
      cases v <;> try rfl
      case str s =>
        by_cases hs : pyStrip s = ""
        · simp only [hs, if_pos]
        · simp only [hs, if_neg, ite_false]
          cases pyInt (List.lookup "Quantity" fields) with
          | none => rfl
          | some qty =>
            by_cases hq : qty < 0
            · simp only [hq, if_pos]
            · simp only [hq, if_neg, ite_false]
              cases List.lookup s prices <;> rfl

/-- Folding the sales loop from any accumulator adds the values of the
valid records and counts the invalid ones. -/
theorem foldl_saleStep (prices : List (String × Rat)) (records : List JValue) :
    ∀ t : Rat, ∀ e : Nat,
      records.foldl (saleStep prices) (t, e) =
        (t + (records.filterMap (recordValue prices)).sum,
         e + (records.filter (fun r => (recordValue prices r).isNone)).length) := by
  induction records with
  | nil => intro t e; simp
  | cons r rest ih =>
    intro t e
    rw [List.foldl_cons, saleStep_eq]
    cases h : recordValue prices r with
    | some v =>
      simp only [ih, List.filterMap_cons, h, List.filter_cons, Option.isNone_some,
        Bool.false_eq_true, if_false, List.sum_cons]
      exact Prod.ext (by ring) rfl
    | none =>
      simp only [ih, List.filterMap_cons, h, List.filter_cons, Option.isNone_none,
        if_true, List.length_cons]
      exact Prod.ext rfl (by omega)

/-- The loop body of `build_price_map` conses the binding a valid entry
yields and skips an invalid entry, as `entryBinding` decides. -/
theorem catalogStep_eq (prices : List (String × Rat)) (item : JValue) :
    catalogStep prices item =
      match entryBinding item with
      | some kv => kv :: prices
      | none => prices := by
  cases item <;> try rfl
  case obj fields =>
    simp only [catalogStep, entryBinding]
    cases List.lookup "title" fields with
    | none => rfl
    | some v =>
      cases v <;> try rfl
      case str s =>
        by_cases hs : pyStrip s = ""
        · simp only [hs, if_pos]
        · simp only [hs, if_neg, ite_false]
          cases pyFloat (List.lookup "price" fields) <;> rfl

/-- Folding the catalog loop prepends, in reverse input order, the bindings
of the valid entries. -/
theorem foldl_catalogStep (items : List JValue) :
    ∀ acc : List (String × Rat),
      items.foldl catalogStep acc = (items.filterMap entryBinding).reverse ++ acc := by
  induction items with
  | nil => intro acc; simp
  | cons i rest ih =>
    intro acc
    rw [List.foldl_cons, catalogStep_eq]
    cases h : entryBinding i with
    | some kv => simp [ih, h, List.filterMap_cons]
    | none => simp [ih, h, List.filterMap_cons]

/-- Valid and invalid elements of a list partition its length. -/
theorem filterMap_length_add_none_length {α β : Type} (f : α → Option β) (l : List α) :
    (l.filterMap f).length + (l.filter (fun a => (f a).isNone)).length = l.length := by
  induction l with
  | nil => rfl
  | cons a rest ih =>
    cases h : f a with
    | some b =>
      simp only [List.filterMap_cons, h, List.filter_cons, Option.isNone_some,
        Bool.false_eq_true, if_false, List.length_cons]
      omega
    | none =>
      simp only [List.filterMap_cons, h, List.filter_cons, Option.isNone_none,
        if_true, List.length_cons]
      omega

/-- The refined loop body either crashes, bumps the error counter, or adds
a record's double contribution, as `recordOutcomeP` decides. -/
theorem saleStepP_eq (prices : List (String × PyFloat)) (acc : PyFloat × Nat)
    (record : PValue) :
    saleStepP prices acc record =
      match recordOutcomeP prices record with
      | none => none
      | some none => some (acc.1, acc.2 + 1)
      | some (some v) => some (acc.1.add v, acc.2) := by
  cases record <;> try rfl
  case obj fields =>
    simp only [saleStepP, recordOutcomeP]
    cases List.lookup "Product" fields with
    | none => rfl
    | some v =>
      cases v <;> try rfl
      case str s =>
        by_cases hs : pyStrip s = ""
        · simp only [hs, if_pos]
        · simp only [hs, ite_false]
          cases pyIntConv (List.lookup "Quantity" fields) with
          | caught => rfl
          | overflow => rfl
          | ok qty =>
            by_cases hq : qty < 0
            · simp only [hq, if_pos]
            · simp only [hq, ite_false]
              cases List.lookup s prices with
              | none => rfl
              | some price =>
                dsimp only
                cases price.mulInt qty <;> rfl

/-- On a crash-free record list the refined sales loop folds the double
contributions of the valid records and counts the invalid ones. -/
theorem salesFoldP_eq (prices : List (String × PyFloat)) (records : List PValue)
    (h : ∀ r ∈ records, recordOutcomeP prices r ≠ none) :
    ∀ t : PyFloat, ∀ e : Nat,
      salesFoldP prices records (t, e) =
        some ((records.filterMap (fun r =>
                match recordOutcomeP prices r with
                | some (some v) => some v
                | _ => none)).foldl PyFloat.add t,
              e + (records.filter (fun r =>
                match recordOutcomeP prices r with
                | some none => true
                | _ => false)).length) := by
  induction records with
  | nil => intro t e; simp [salesFoldP]
  | cons r rest ih =>
    intro t e
    have hrest : ∀ x ∈ rest, recordOutcomeP prices x ≠ none :=
      fun x hx => h x (List.mem_cons_of_mem _ hx)
    cases ho : recordOutcomeP prices r with
    | none => exact absurd ho (h r (List.mem_cons_self _ _))
    | some c =>
      cases c with
      | none =>
        have hstep : salesFoldP prices (r :: rest) (t, e) =
            salesFoldP prices rest (t, e + 1) := by
          simp only [salesFoldP, saleStepP_eq, ho]
        have hfm : List.filterMap (fun x =>
              match recordOutcomeP prices x with
              | some (some v) => some v
              | _ => none) (r :: rest) =
            List.filterMap (fun x =>
              match recordOutcomeP prices x with
              | some (some v) => some v
              | _ => none) rest := by
          simp [List.filterMap_cons, ho]
        have hfl : List.filter (fun x =>
              match recordOutcomeP prices x with
              | some none => true
              | _ => false) (r :: rest) =
            r :: List.filter (fun x =>
              match recordOutcomeP prices x with
              | some none => true
              | _ => false) rest := by
          simp [List.filter_cons, ho]
        rw [hstep, ih hrest, hfm, hfl, List.length_cons]
        exact congrArg some (Prod.ext rfl (by omega))
      | some v =>
        have hstep : salesFoldP prices (r :: rest) (t, e) =
            salesFoldP prices rest (PyFloat.add t v, e) := by
          simp only [salesFoldP, saleStepP_eq, ho]
        have hfm : List.filterMap (fun x =>
              match recordOutcomeP prices x with
              | some (some v) => some v
              | _ => none) (r :: rest) =
            v :: List.filterMap (fun x =>
              match recordOutcomeP prices x with
              | some (some v) => some v
              | _ => none) rest := by
          simp [List.filterMap_cons, ho]
        have hfl : List.filter (fun x =>
              match recordOutcomeP prices x with
              | some none => true
              | _ => false) (r :: rest) =
            List.filter (fun x =>
              match recordOutcomeP prices x with
              | some none => true
              | _ => false) rest := by
          simp [List.filter_cons, ho]
        rw [hstep, ih hrest, hfm, hfl, List.foldl_cons]

/-- The refined sales loop crashes exactly when some record in the list
raises an uncaught exception. -/
theorem salesFoldP_none_iff (prices : List (String × PyFloat)) (records : List PValue) :
    ∀ acc : PyFloat × Nat,
      (salesFoldP prices records acc = none ↔
        ∃ r ∈ records, recordOutcomeP prices r = none) := by
  induction records with
  | nil => intro acc; simp [salesFoldP]
  | cons r rest ih =>
    intro acc
    cases ho : recordOutcomeP prices r with
    | none =>
      simp only [salesFoldP, saleStepP_eq, ho]
      exact iff_of_true trivial ⟨r, List.mem_cons_self _ _, ho⟩
    | some c =>
      cases c with
      | none =>
        simp only [salesFoldP, saleStepP_eq, ho]
        rw [ih]
        simp [ho]
      | some v =>
        simp only [salesFoldP, saleStepP_eq, ho]
        rw [ih]
        simp [ho]

/-- The refined catalog loop body either crashes, skips, or conses the
binding of a valid entry, as `entryOutcomeP` decides. -/
theorem catalogStepP_eq (prices : List (String × PyFloat)) (item : PValue) :
    catalogStepP prices item =
      match entryOutcomeP item with
      | none => none
      | some none => some prices
      | some (some kv) => some (kv :: prices) := by
  cases item <;> try rfl
  case obj fields =>
    simp only [catalogStepP, entryOutcomeP]
    cases List.lookup "title" fields with
    | none => rfl
    | some v =>
      cases v <;> try rfl
      case str s =>
        by_cases hs : pyStrip s = ""
        · simp only [hs, if_pos]
        · simp only [hs, ite_false]
          cases pyFloatConv (List.lookup "price" fields) <;> rfl

/-- On a crash-free catalog the refined loop prepends, in reverse input
order, the bindings of the valid entries. -/
theorem catalogFoldP_eq (items : List PValue)
    (h : ∀ i ∈ items, entryOutcomeP i ≠ none) :
    ∀ acc : List (String × PyFloat),
      catalogFoldP items acc =
        some ((items.filterMap (fun i =>
          match entryOutcomeP i with
          | some (some kv) => some kv
          | _ => none)).reverse ++ acc) := by
  induction items with
  | nil => intro acc; simp [catalogFoldP]
  | cons i rest ih =>
    intro acc
    have hi : entryOutcomeP i ≠ none := h i (List.mem_cons_self _ _)
    have hrest : ∀ x ∈ rest, entryOutcomeP x ≠ none :=
      fun x hx => h x (List.mem_cons_of_mem _ hx)
    cases ho : entryOutcomeP i with
    | none => exact absurd ho hi
    | some c =>
      cases c with
      | none =>
        simp only [catalogFoldP, catalogStepP_eq, ho, List.filterMap_cons, ih hrest]
      | some kv =>
        simp only [catalogFoldP, catalogStepP_eq, ho, List.filterMap_cons, ih hrest,
          List.reverse_cons, List.append_assoc, List.singleton_append]

/-! ## Claims -/

/-- C1 counterexample: a record whose `Quantity` is the double infinity —
produced by the standard JSON literal 1e999 — makes `int()` raise an
`OverflowError` that the except clause at line 84 does not catch: the loop
aborts and no `(total, error_count)` pair is returned at all, refuting the
claim that the stated pair is returned for every list of records and that
no record ever aborts the loop. -/
theorem infinite_quantity_aborts_loop :
    compute_total_salesP [("A", PyFloat.finite 10)]
      (PValue.arr [PValue.obj
        [("Product", PValue.str "A"),
         ("Quantity", PValue.num (PNum.float PyFloat.inf))]]) = none := by
  decide

/-- C1 amended: provided no record raises an uncaught `OverflowError` (an
infinite-float quantity at line 84, or a priced product whose integer
quantity exceeds the double range at line 99), `compute_total_sales`
returns the left-to-right double sum of `price[product] * quantity` over
exactly the records that pass all five checks, paired with the number of
records failing at least one check. -/
theorem compute_total_sales_correct_no_overflow (prices : List (String × PyFloat))
    (records : List PValue)
    (h : ∀ r ∈ records, recordOutcomeP prices r ≠ none) :
    compute_total_salesP prices (PValue.arr records) =
      some ((records.filterMap (fun r =>
              match recordOutcomeP prices r with
              | some (some v) => some v
              | _ => none)).foldl PyFloat.add (PyFloat.finite 0),
            (records.filter (fun r =>
              match recordOutcomeP prices r with
              | some none => true
              | _ => false)).length) := by
  show salesFoldP prices records (PyFloat.finite 0, 0) = _
  rw [salesFoldP_eq prices records h]
  simp

unseal Rat.mul Rat.add Rat.sub Rat.inv in
/-- Witness for the amended C1 on a crash-free list: one valid record and
one invalid one. -/
theorem compute_total_sales_correct_no_overflow_witness :
    (∀ r ∈ [PValue.obj [("Product", PValue.str "A"),
              ("Quantity", PValue.num (PNum.int 3))], PValue.null],
      recordOutcomeP [("A", PyFloat.finite 10)] r ≠ none) ∧
    compute_total_salesP [("A", PyFloat.finite 10)]
      (PValue.arr [PValue.obj [("Product", PValue.str "A"),
        ("Quantity", PValue.num (PNum.int 3))], PValue.null]) =
      some (PyFloat.finite 30, 1) := by
  have h : ∀ r ∈ [PValue.obj [("Product", PValue.str "A"),
      ("Quantity", PValue.num (PNum.int 3))], PValue.null],
      recordOutcomeP [("A", PyFloat.finite 10)] r ≠ none := by decide
  refine ⟨h, (compute_total_sales_correct_no_overflow _ _ h).trans ?_⟩
  decide

/-- C3 counterexample: an integer price of 401 digits makes `float()`
raise an `OverflowError` that the except clause at line 46 does not catch,
so `build_price_map` raises instead of returning a map, refuting
never-raises at this input. -/
theorem huge_int_price_raises :
    build_price_mapP (PValue.arr [PValue.obj
      [("title", PValue.str "A"),
       ("price", PValue.num (PNum.int (10 ^ 400)))]]) = none := by
  decide

/-- C3 amended: for every input value, `build_price_map` returns the
accumulated mapping of the valid entries (possibly empty, empty for
non-list input) unless some entry with a valid title carries an integer
price beyond the double range, in which case `float()` raises an uncaught
`OverflowError` instead. -/
theorem build_price_map_total_map_no_overflow (catalog : PValue)
    (h : ∀ i ∈ arrElemsP catalog, entryOutcomeP i ≠ none) :
    build_price_mapP catalog =
      some ((arrElemsP catalog).filterMap (fun i =>
        match entryOutcomeP i with
        | some (some kv) => some kv
        | _ => none)).reverse := by
  cases catalog <;> try rfl
  case arr items =>
    show catalogFoldP items [] = _
    rw [catalogFoldP_eq items h]
    simp [arrElemsP]

unseal Rat.mul Rat.add Rat.sub Rat.inv in
/-- Witness for the amended C3: one valid entry, one invalid, no
overflowing price. -/
theorem build_price_map_total_map_no_overflow_witness :
    (∀ i ∈ arrElemsP (PValue.arr [PValue.obj [("title", PValue.str "A"),
        ("price", PValue.num (PNum.int 2))], PValue.null]),
      entryOutcomeP i ≠ none) ∧
    build_price_mapP (PValue.arr [PValue.obj [("title", PValue.str "A"),
        ("price", PValue.num (PNum.int 2))], PValue.null]) =
      some [("A", PyFloat.finite 2)] := by
  have h : ∀ i ∈ arrElemsP (PValue.arr [PValue.obj [("title", PValue.str "A"),
      ("price", PValue.num (PNum.int 2))], PValue.null]),
      entryOutcomeP i ≠ none := by decide
  refine ⟨h, (build_price_map_total_map_no_overflow _ h).trans ?_⟩
  decide

/-- C4 counterexample: a record whose `Quantity` is the double infinity
has a quantity that is not an integer at least 0, yet instead of being
skipped with the error count bumped it crashes the loop with an uncaught
`OverflowError`. -/
theorem infinite_quantity_not_skipped :
    saleStepP [("A", PyFloat.finite 10)] (PyFloat.finite 0, 0)
      (PValue.obj [("Product", PValue.str "A"),
        ("Quantity", PValue.num (PNum.float PyFloat.inf))]) = none := by
  decide

/-- C4 amended: a record whose quantity conversion fails with a caught
`TypeError`/`ValueError`, or converts to a negative integer, is skipped
with a warning: the error count is incremented by one and the record
contributes nothing to the total.  Quantities whose conversion raises
`OverflowError` (infinite floats) instead crash the run and are excluded
here. -/
theorem caught_invalid_quantity_skipped (prices : List (String × PyFloat))
    (t : PyFloat) (e : Nat) (r : PValue)
    (hov : pyQuantityConvP r ≠ PyConv.overflow)
    (h : ∀ qty : Int, pyQuantityConvP r = PyConv.ok qty → qty < 0) :
    saleStepP prices (t, e) r = some (t, e + 1) := by
  cases r <;> try rfl
  case obj fields =>
    simp only [saleStepP]
    cases List.lookup "Product" fields with
    | none => rfl
    | some v =>
      cases v <;> try rfl
      case str s =>
        by_cases hs : pyStrip s = ""
        · simp [hs]
        · simp only [hs, ite_false]
          cases hq : pyIntConv (List.lookup "Quantity" fields) with
          | caught => rfl
          | overflow => exact absurd hq hov
          | ok qty =>
            have hneg := h qty hq
            simp [hneg]

/-- Witness for the amended C4 at a record whose `Quantity` is the string
x, a caught `ValueError`. -/
theorem caught_invalid_quantity_skipped_witness :
    (pyQuantityConvP (PValue.obj [("Product", PValue.str "A"),
        ("Quantity", PValue.str "x")]) ≠ PyConv.overflow) ∧
    saleStepP [("A", PyFloat.finite 10)] (PyFloat.finite 5, 2)
      (PValue.obj [("Product", PValue.str "A"), ("Quantity", PValue.str "x")]) =
      some (PyFloat.finite 5, 3) := by
  have hov : pyQuantityConvP (PValue.obj [("Product", PValue.str "A"),
      ("Quantity", PValue.str "x")]) ≠ PyConv.overflow := by decide
  have hc : pyQuantityConvP (PValue.obj [("Product", PValue.str "A"),
      ("Quantity", PValue.str "x")]) = PyConv.caught := by decide
  have h : ∀ qty : Int, pyQuantityConvP (PValue.obj [("Product", PValue.str "A"),
      ("Quantity", PValue.str "x")]) = PyConv.ok qty → qty < 0 := by
    intro qty hq
    rw [hc] at hq
    cases hq
  exact ⟨hov, caught_invalid_quantity_skipped _ _ _ _ hov h⟩

unseal Rat.mul Rat.add Rat.sub Rat.inv in
/-- C6 counterexample: with products A and B priced 1e308 and C priced
-1e308 (quantity 1 each, all records valid), summing in the order A,B,C
overflows to the double infinity, which then absorbs C, while the order
A,C,B cancels first and stays finite: two permutations of the same sales
list give different totals, refuting order-independence of the total in
double arithmetic. -/
theorem double_total_order_dependent :
    ([PValue.obj [("Product", PValue.str "A"), ("Quantity", PValue.num (PNum.int 1))],
      PValue.obj [("Product", PValue.str "B"), ("Quantity", PValue.num (PNum.int 1))],
      PValue.obj [("Product", PValue.str "C"), ("Quantity", PValue.num (PNum.int 1))]].Perm
     [PValue.obj [("Product", PValue.str "A"), ("Quantity", PValue.num (PNum.int 1))],
      PValue.obj [("Product", PValue.str "C"), ("Quantity", PValue.num (PNum.int 1))],
      PValue.obj [("Product", PValue.str "B"), ("Quantity", PValue.num (PNum.int 1))]]) ∧
    compute_total_salesP
      [("A", PyFloat.finite (mkRat (10 ^ 308) 1)),
       ("B", PyFloat.finite (mkRat (10 ^ 308) 1)),
       ("C", PyFloat.finite (-(mkRat (10 ^ 308) 1)))]
      (PValue.arr
        [PValue.obj [("Product", PValue.str "A"), ("Quantity", PValue.num (PNum.int 1))],
         PValue.obj [("Product", PValue.str "B"), ("Quantity", PValue.num (PNum.int 1))],
         PValue.obj [("Product", PValue.str "C"), ("Quantity", PValue.num (PNum.int 1))]]) ≠
    compute_total_salesP
      [("A", PyFloat.finite (mkRat (10 ^ 308) 1)),
       ("B", PyFloat.finite (mkRat (10 ^ 308) 1)),
       ("C", PyFloat.finite (-(mkRat (10 ^ 308) 1)))]
      (PValue.arr
        [PValue.obj [("Product", PValue.str "A"), ("Quantity", PValue.num (PNum.int 1))],
         PValue.obj [("Product", PValue.str "C"), ("Quantity", PValue.num (PNum.int 1))],
         PValue.obj [("Product", PValue.str "B"), ("Quantity", PValue.num (PNum.int 1))]]) := by
  constructor
  · exact List.Perm.cons _ (List.Perm.swap _ _ _)
  · decide

/-- C6 amended: the error count, and whether the run completes at all, are
invariant under permutation of the sales list — a record's validity never
depends on the running total — but the total itself is order-dependent in
double arithmetic (see the counterexample), so only the count component of
the result is permutation-invariant in general. -/
theorem error_count_order_independent (prices : List (String × PyFloat))
    (l1 l2 : List PValue) (h : l1.Perm l2) :
    (compute_total_salesP prices (PValue.arr l1)).map Prod.snd =
      (compute_total_salesP prices (PValue.arr l2)).map Prod.snd := by
  show (salesFoldP prices l1 (PyFloat.finite 0, 0)).map Prod.snd =
    (salesFoldP prices l2 (PyFloat.finite 0, 0)).map Prod.snd
  by_cases hc : ∃ r ∈ l1, recordOutcomeP prices r = none
  · have hc2 : ∃ r ∈ l2, recordOutcomeP prices r = none := by
      obtain ⟨r, hr, ho⟩ := hc
      exact ⟨r, h.mem_iff.mp hr, ho⟩
    rw [(salesFoldP_none_iff prices l1 _).mpr hc, (salesFoldP_none_iff prices l2 _).mpr hc2]
  · have h1 : ∀ r ∈ l1, recordOutcomeP prices r ≠ none :=
      fun r hr ho => hc ⟨r, hr, ho⟩
    have h2 : ∀ r ∈ l2, recordOutcomeP prices r ≠ none :=
      fun r hr ho => hc ⟨r, h.mem_iff.mpr hr, ho⟩
    rw [salesFoldP_eq prices l1 h1, salesFoldP_eq prices l2 h2]
    have hlen := (h.filter (fun r =>
      match recordOutcomeP prices r with
      | some none => true
      | _ => false)).length_eq
    simp [hlen]

/-- Witness for the amended C6 on a two-record swap. -/
theorem error_count_order_independent_witness :
    ([PValue.null,
      PValue.obj [("Product", PValue.str "A"), ("Quantity", PValue.num (PNum.int 3))]].Perm
     [PValue.obj [("Product", PValue.str "A"), ("Quantity", PValue.num (PNum.int 3))],
      PValue.null]) ∧
    (compute_total_salesP [("A", PyFloat.finite 10)]
      (PValue.arr [PValue.null,
        PValue.obj [("Product", PValue.str "A"),
          ("Quantity", PValue.num (PNum.int 3))]])).map Prod.snd =
    (compute_total_salesP [("A", PyFloat.finite 10)]
      (PValue.arr [PValue.obj [("Product", PValue.str "A"),
          ("Quantity", PValue.num (PNum.int 3))],
        PValue.null])).map Prod.snd :=
  ⟨List.Perm.swap _ _ _, error_count_order_independent _ _ _ (List.Perm.swap _ _ _)⟩

/-- C10: the error count is at most the number of records, and valid
records (those that contribute to the total) and error records partition
the list — no record is counted twice or both ways. -/
theorem error_count_bounded (prices : List (String × Rat)) (records : List JValue) :
    (compute_total_sales prices (JValue.arr records)).2 ≤ records.length ∧
    (records.filterMap (recordValue prices)).length
      + (compute_total_sales prices (JValue.arr records)).2 = records.length := by
  simp only [compute_total_sales, foldl_saleStep, zero_add]
  exact ⟨List.length_filter_le _ _, filterMap_length_add_none_length _ _⟩

/-- Lookup in an append scans left to right. -/
theorem lookup_append_or (t : String) (l1 l2 : List (String × Rat)) :
    List.lookup t (l1 ++ l2) = (List.lookup t l1).or (List.lookup t l2) := by
  induction l1 with
  | nil => simp [List.lookup]
  | cons kv rest ih =>
    rcases kv with ⟨k, v⟩
    simp only [List.cons_append, List.lookup]
    cases t == k
    · simpa using ih
    · rfl

/-- Lookup misses a list none of whose keys is the sought one. -/
theorem lookup_eq_none_of_keys_ne (t : String) (l : List (String × Rat))
    (h : ∀ kv ∈ l, kv.1 ≠ t) : List.lookup t l = none := by
  induction l with
  | nil => rfl
  | cons kv rest ih =>
    rcases kv with ⟨k, v⟩
    have hk : k ≠ t := h (k, v) (List.mem_cons_self _ _)
    have hbeq : (t == k) = false := by
      simp only [beq_eq_false_iff_ne, ne_eq]
      exact fun e => hk e.symm
    simp only [List.lookup, hbeq]
    exact ih (fun kv hkv => h kv (List.mem_cons_of_mem _ hkv))

/-- C7: when a catalog contains several valid entries for the same title,
the resulting price map binds that title to the price of the last such
entry in input order — whatever valid duplicates occur earlier. -/
theorem price_map_last_write_wins (pre post : List JValue) (item : JValue)
    (t : String) (p : Rat)
    (hitem : entryBinding item = some (t, p))
    (hpost : ∀ i ∈ post, (entryBinding i).map Prod.fst ≠ some t) :
    List.lookup t (build_price_map (JValue.arr (pre ++ item :: post))) = some p := by
  have hmap : build_price_map (JValue.arr (pre ++ item :: post)) =
      ((pre ++ item :: post).filterMap entryBinding).reverse := by
    show (pre ++ item :: post).foldl catalogStep [] = _
    rw [foldl_catalogStep, List.append_nil]
  rw [hmap, List.filterMap_append, List.filterMap_cons, hitem]
  rw [List.reverse_append, List.reverse_cons, List.append_assoc]
  rw [lookup_append_or]
  have hnone : List.lookup t ((post.filterMap entryBinding).reverse) = none := by
    refine lookup_eq_none_of_keys_ne t _ (fun kv hkv => ?_)
    rw [List.mem_reverse] at hkv
    obtain ⟨i, hi, hbi⟩ := List.mem_filterMap.mp hkv
    intro hfst
    exact hpost i hi (by rw [hbi]; simp [hfst])
  rw [hnone]
  have hhead : List.lookup t ((t, p) :: (pre.filterMap entryBinding).reverse) = some p := by
    simp [List.lookup]
  simp only [Option.none_or]
  exact hhead

/-- Witness for C7: two valid entries titled `"A"`; the later (price 3)
wins over the earlier (price 1), with a later `"B"` entry in between. -/
theorem price_map_last_write_wins_witness :
    (entryBinding (JValue.obj [("title", JValue.str "A"), ("price", JValue.num 3)]) =
      some ("A", 3)) ∧
    (∀ i ∈ [JValue.obj [("title", JValue.str "B"), ("price", JValue.num 7)]],
      (entryBinding i).map Prod.fst ≠ some "A") ∧
    List.lookup "A" (build_price_map (JValue.arr
      [JValue.obj [("title", JValue.str "A"), ("price", JValue.num 1)],
       JValue.obj [("title", JValue.str "A"), ("price", JValue.num 3)],
       JValue.obj [("title", JValue.str "B"), ("price", JValue.num 7)]])) = some 3 := by
  refine ⟨by decide, by decide, ?_⟩
  exact price_map_last_write_wins
    [JValue.obj [("title", JValue.str "A"), ("price", JValue.num 1)]]
    [JValue.obj [("title", JValue.str "B"), ("price", JValue.num 7)]]
    (JValue.obj [("title", JValue.str "A"), ("price", JValue.num 3)])
    "A" 3 (by decide) (by decide)

/-- A failed load yields `None`. -/
theorem load_json_eq_none {fs : String → LoadOutcome} {path : String}
    (h : (fs path).failed = true) : load_json fs path = none := by
  unfold load_json
  cases hfp : fs path <;> simp_all [LoadOutcome.failed]

/-- C2: when both input files parse, a catalog payload that is not a list
degrades to the empty price map, a sales payload that is not a list makes
the aggregator return `(0, 1)` immediately (one aggregate error), and in
either case the run still reaches the report and exits with status 0. -/
theorem structural_errors_degrade (prog cpath spath : String)
    (fs : String → LoadOutcome) (out0 : Option String) (elapsed : Rat)
    (catalog sales : JValue)
    (hc : fs cpath = LoadOutcome.ok catalog) (hs : fs spath = LoadOutcome.ok sales) :
    ((∀ xs, catalog ≠ JValue.arr xs) → build_price_map catalog = []) ∧
    ((∀ xs, sales ≠ JValue.arr xs) →
      ∀ prices : List (String × Rat), compute_total_sales prices sales = (0, 1)) ∧
    (main [prog, cpath, spath] fs out0 elapsed).exitCode = 0 ∧
    (main [prog, cpath, spath] fs out0 elapsed).reportPrinted.isSome = true := by
  refine ⟨?_, ?_, ?_, ?_⟩
  · intro hna
    cases catalog <;> first | rfl | exact absurd rfl (hna _)
  · intro hna prices
    cases sales <;> first | rfl | exact absurd rfl (hna _)
  · simp [main, load_json, hc, hs]
  · simp [main, load_json, hc, hs]

/-- Witness for C2: catalog `null`, sales a JSON object. -/
theorem structural_errors_degrade_witness :
    build_price_map JValue.null = [] ∧
    compute_total_sales [] (JValue.obj []) = (0, 1) ∧
    (main ["compute_sales.py", "c.json", "s.json"]
      (fun p => if p = "c.json" then LoadOutcome.ok JValue.null
                else LoadOutcome.ok (JValue.obj []))
      none 0).exitCode = 0 := by
  obtain ⟨h1, h2, h3, _⟩ := structural_errors_degrade "compute_sales.py" "c.json" "s.json"
    (fun p => if p = "c.json" then LoadOutcome.ok JValue.null
              else LoadOutcome.ok (JValue.obj []))
    none 0 JValue.null (JValue.obj []) (by simp) (by simp)
  exact ⟨h1 (fun xs h => JValue.noConfusion h),
    h2 (fun xs h => JValue.noConfusion h) [], h3⟩

/-- C5: when either input is missing, unparseable or unreadable, `main`
exits with status 1, leaves the output file exactly as it was, and never
reaches the report. -/
theorem load_failure_aborts (prog cpath spath : String) (fs : String → LoadOutcome)
    (out0 : Option String) (elapsed : Rat)
    (h : (fs cpath).failed = true ∨ (fs spath).failed = true) :
    (main [prog, cpath, spath] fs out0 elapsed).exitCode = 1 ∧
    (main [prog, cpath, spath] fs out0 elapsed).outFile = out0 ∧
    (main [prog, cpath, spath] fs out0 elapsed).reportPrinted = none := by
  cases h with
  | inl h1 =>
    have h1n := load_json_eq_none h1
    cases h2 : load_json fs spath <;> simp [main, h1n, h2]
  | inr h1 =>
    have h1n := load_json_eq_none h1
    cases h2 : load_json fs cpath <;> simp [main, h1n, h2]

/-- Witness for C5: the catalog path does not exist. -/
theorem load_failure_aborts_witness :
    (((fun p => if p = "c.json" then LoadOutcome.notFound
                else LoadOutcome.ok (JValue.arr [])) "c.json").failed = true ∨
     ((fun p => if p = "c.json" then LoadOutcome.notFound
                else LoadOutcome.ok (JValue.arr [])) "s.json").failed = true) ∧
    (main ["compute_sales.py", "c.json", "s.json"]
      (fun p => if p = "c.json" then LoadOutcome.notFound
                else LoadOutcome.ok (JValue.arr []))
      (some "stale") 0).exitCode = 1 ∧
    (main ["compute_sales.py", "c.json", "s.json"]
      (fun p => if p = "c.json" then LoadOutcome.notFound
                else LoadOutcome.ok (JValue.arr []))
      (some "stale") 0).outFile = some "stale" := by
  have h : ((fun p => if p = "c.json" then LoadOutcome.notFound
      else LoadOutcome.ok (JValue.arr [])) "c.json").failed = true := by simp [LoadOutcome.failed]
  obtain ⟨h1, h2, _⟩ := load_failure_aborts "compute_sales.py" "c.json" "s.json"
    (fun p => if p = "c.json" then LoadOutcome.notFound else LoadOutcome.ok (JValue.arr []))
    (some "stale") 0 (Or.inl h)
  exact ⟨Or.inl h, h1, h2⟩

/-- C8: the Reporter emits the fixed four-line block — total to two
decimals, the error count, elapsed time to six decimals followed by
` seconds` — the file write replaces any prior content with exactly that
text, and whenever `main` prints a report the file receives the identical
text (otherwise the file is untouched). -/
theorem reporter_format_and_write (total : Rat) (errors : Nat) (elapsed : Rat)
    (old1 old2 : Option String) :
    format_results total errors elapsed =
      "=== Sales Results ===\n" ++ "Total Sales: $" ++ formatFixed total 2 ++ "\n" ++
      "Errors/Warnings: " ++ Nat.repr errors ++ "\n" ++
      "Execution Time: " ++ formatFixed elapsed 6 ++ " seconds\n" ∧
    write_results old1 (format_results total errors elapsed) =
      some (format_results total errors elapsed) ∧
    write_results old1 (format_results total errors elapsed) =
      write_results old2 (format_results total errors elapsed) ∧
    (∀ argv : List String, ∀ fs : String → LoadOutcome, ∀ out0 : Option String, ∀ e : Rat,
      (main argv fs out0 e).outFile = ((main argv fs out0 e).reportPrinted).or out0) := by
  refine ⟨rfl, rfl, rfl, ?_⟩
  intro argv fs out0 e
  match argv with
  | [] => rfl
  | [_] => rfl
  | [_, _] => rfl
  | [_, b, c] =>
    cases h1 : load_json fs b <;> cases h2 : load_json fs c <;>
      simp [main, h1, h2, write_results, Option.or]
  | _ :: _ :: _ :: _ :: _ => rfl

/-- C9: two runs over the same parsed inputs compute the same total and
error count (only the elapsed time in the report may differ), and the
second run's output file holds exactly the fresh report — the first run's
content is overwritten, not appended to. -/
theorem rerun_deterministic (prog cpath spath : String) (fs : String → LoadOutcome)
    (out0 : Option String) (e1 e2 : Rat) (catalog sales : JValue) (T : Rat) (E : Nat)
    (hc : fs cpath = LoadOutcome.ok catalog) (hs : fs spath = LoadOutcome.ok sales)
    (hTE : compute_total_sales (build_price_map catalog) sales = (T, E)) :
    (main [prog, cpath, spath] fs out0 e1).outFile = some (format_results T E e1) ∧
    (main [prog, cpath, spath] fs
        ((main [prog, cpath, spath] fs out0 e1).outFile) e2).outFile =
      some (format_results T E e2) := by
  constructor <;> simp [main, load_json, hc, hs, hTE, write_results]

/-- Witness for C9 on empty catalog and sales lists. -/
theorem rerun_deterministic_witness :
    (compute_total_sales (build_price_map (JValue.arr [])) (JValue.arr []) = (0, 0)) ∧
    (main ["compute_sales.py", "c.json", "s.json"]
      (fun _ => LoadOutcome.ok (JValue.arr [])) none 1).outFile =
      some (format_results 0 0 1) ∧
    (main ["compute_sales.py", "c.json", "s.json"]
      (fun _ => LoadOutcome.ok (JValue.arr []))
      ((main ["compute_sales.py", "c.json", "s.json"]
        (fun _ => LoadOutcome.ok (JValue.arr [])) none 1).outFile) 2).outFile =
      some (format_results 0 0 2) := by
  obtain ⟨h1, h2⟩ := rerun_deterministic "compute_sales.py" "c.json" "s.json"
    (fun _ => LoadOutcome.ok (JValue.arr [])) none 1 2 (JValue.arr []) (JValue.arr [])
    0 0 rfl rfl rfl
  exact ⟨rfl, h1, h2⟩

end ComputeSales
